import Mathlib

/-!
# go-crud-api: the student request handlers

A shallow embedding of `internal/http/handlers/student.go` and
`internal/utils/response/response.go`.

* The five handlers (`Create`, `Get`, `GetList`, `Update`, `Delete`) are
  functions from a response writer, a request and the storage state to the
  response writer and storage state they leave behind.
* `http.ResponseWriter` is a record of the header map, the status line that
  was sent (with the headers frozen at that moment) and the values handed to
  the JSON encoder; a call that panics in the server returns `none`.
* The storage interface, the JSON value decoder, the validator and
  `strconv.Quote` are collaborators outside the two files; they are fields of
  `Env`, so every theorem holds for every implementation of them.
* `strconv.ParseInt(s, 10, 64)`, the end-of-stream rule of
  `json.Decoder.Decode` and the status check of the server in `WriteHeader`
  are written out, because the handlers branch on or run into them.
* `slog` calls write to the process log only and are left out.
-/

namespace GoCrudApi

/-! ## JSON values and Go errors -/

/-- JSON documents as trees; an object keeps its members in written order. -/
inductive Json where
  | null
  | bool (b : Bool)
  | num (n : Int)
  | str (s : String)
  | arr (items : List Json)
  | obj (members : List (String × Json))

/-- The member names of a JSON object, in written order (empty for a
value that is not an object). -/
def Json.keys : Json → List String
  | .obj members => members.map (fun m => m.1)
  | _ => []

/-- A Go `error` value, by what the handlers can observe of it: the text of
`Error()`, whether `errors.Is(err, io.EOF)` holds, and the document
`encoding/json` produces when the value itself is encoded. -/
structure GoError where
  Error : String
  IsEOF : Bool
  Marshal : Json

/-- The sentinel `io.EOF` (an `*errors.errorString`, which has no exported
field and so encodes as the empty object). -/
def EOF : GoError := ⟨"EOF", true, .obj []⟩

/-- The value of `errors.New(text)`, which is also what `fmt.Errorf(text)`
returns when the format has no verb. -/
def errorsNew (text : String) : GoError := ⟨text, false, .obj []⟩

/-- The value of `fmt.Errorf(pre + "%w", err)`: the message is the literal
text followed by the message of `err`, and `errors.Is` sees through the
wrapper (`*fmt.wrapError`, no exported field). -/
def Errorf_w (pre : String) (err : GoError) : GoError :=
  ⟨pre ++ err.Error, err.IsEOF, .obj []⟩

/-! ## strconv.ParseInt(s, 10, 64) -/

/-- The two sentinel causes inside a `*strconv.NumError`. -/
inductive NumErrKind where
  | ErrSyntax
  | ErrRange
  deriving DecidableEq, Repr

/-- The struct `strconv.NumError`. -/
structure NumError where
  Func : String
  Num : String
  Err : NumErrKind
  deriving DecidableEq, Repr

/-- The method `Error()` of the two sentinels. -/
def NumErrKind.Error : NumErrKind → String
  | .ErrSyntax => "invalid syntax"
  | .ErrRange => "value out of range"

/-- A `*strconv.NumError` as an `error` value.  `Quote` is `strconv.Quote`.
The struct has three exported fields, the last one an `*errors.errorString`. -/
def NumError.toError (Quote : String → String) (e : NumError) : GoError :=
  ⟨"strconv." ++ e.Func ++ ": parsing " ++ Quote e.Num ++ ": " ++ e.Err.Error,
   false,
   .obj [("Func", .str e.Func), ("Num", .str e.Num), ("Err", .obj [])]⟩

def syntaxError (fn str : String) : NumError := ⟨fn, str, .ErrSyntax⟩

def rangeError (fn str : String) : NumError := ⟨fn, str, .ErrRange⟩

def fnParseUint : String := "ParseUint"

def fnParseInt : String := "ParseInt"

/-- The largest `uint64`. -/
def maxUint64 : Nat := 2 ^ 64 - 1

/-- The digit loop of `strconv.ParseUint(s, 10, 64)`, with `n` the
accumulator (a `uint64`, hence the explicit reductions modulo `2 ^ 64`).
A byte outside `0..9` is a letter (a digit of value ten or more, refused
because the base is ten) or falls to the default branch; both return
`syntaxError`.  The result is the pair Go returns. -/
def parseUintLoop (s0 : String) : List Char → Nat → Nat × Option NumError
  | [], n => (n, none)
  | c :: cs, n =>
    if 48 ≤ c.toNat ∧ c.toNat ≤ 57 then
      let d := c.toNat - 48
      -- cutoff = maxUint64/10 + 1
      if n ≥ maxUint64 / 10 + 1 then
        (maxUint64, some (rangeError fnParseUint s0))
      else
        let n10 := n * 10 % 2 ^ 64
        let n1 := (n10 + d) % 2 ^ 64
        if n1 < n10 ∨ n1 > maxUint64 then
          (maxUint64, some (rangeError fnParseUint s0))
        else
          parseUintLoop s0 cs n1
    else
      (0, some (syntaxError fnParseUint s0))

/-- The function `strconv.ParseUint(s, 10, 64)`, on the characters of `s`. -/
def ParseUint (s : List Char) : Nat × Option NumError :=
  if s = [] then (0, some (syntaxError fnParseUint (String.mk s)))
  else parseUintLoop (String.mk s) s 0

/-- The function `strconv.ParseInt(s, 10, 64)`.  An error of ParseUint
other than a range error is returned with `Func` and `Num` replaced; after a
range error ParseUint has returned the largest `uint64`, which the checks
against the cutoff turn into the range error of ParseInt. -/
def ParseInt (s0 : String) : Except NumError Int :=
  match s0.toList with
  | [] => .error (syntaxError fnParseInt s0)
  | c :: rest =>
    -- pick off the leading sign
    let neg := c = '-'
    let s := if c = '+' ∨ c = '-' then rest else c :: rest
    -- convert unsigned and check the range
    let res := ParseUint s
    match res.2.filter (fun e => e.Err ≠ .ErrRange) with
    | some e => .error { e with Func := fnParseInt, Num := s0 }
    | none =>
      let un := res.1
      let cutoff := 2 ^ 63
      if ¬ neg ∧ un ≥ cutoff then .error (rangeError fnParseInt s0)
      else if neg ∧ un > cutoff then .error (rangeError fnParseInt s0)
      else .ok (if neg then -(un : Int) else (un : Int))

/-- The part of ParseInt after the sign has been picked off, named so that
its result can be stated on its own. -/
def signedResult (s0 : String) (neg : Prop) [Decidable neg] (s : List Char) :
    Except NumError Int :=
  match (ParseUint s).2.filter (fun e => e.Err ≠ .ErrRange) with
  | some e => .error { e with Func := fnParseInt, Num := s0 }
  | none =>
    if ¬ neg ∧ (ParseUint s).1 ≥ 2 ^ 63 then .error (rangeError fnParseInt s0)
    else if neg ∧ (ParseUint s).1 > 2 ^ 63 then .error (rangeError fnParseInt s0)
    else .ok (if neg then -((ParseUint s).1 : Int) else ((ParseUint s).1 : Int))

/-! ### What a base-10 numeral of a 64-bit integer is -/

/-- The number a run of decimal digits writes, read left to right from the
value `n` of the digits before it. -/
def decimalValue (n : Nat) : List Char → Nat
  | [] => n
  | c :: cs => decimalValue (n * 10 + (c.toNat - 48)) cs

/-- A decimal digit. -/
def isDigit (c : Char) : Bool := 48 ≤ c.toNat ∧ c.toNat ≤ 57

/-- In the words of the spec: the text is a base-10 numeral of the 64-bit
integer `n`, that is an optional sign, then one or more decimal digits, and
the number written lies between `-2^63` and `2^63 - 1`. -/
def DecimalInt64 (s : String) (n : Int) : Prop :=
  ∃ digits : List Char, digits ≠ [] ∧ digits.all isDigit = true ∧
    -(2 : Int) ^ 63 ≤ n ∧ n < (2 : Int) ^ 63 ∧
    ((s.toList = digits ∧ n = decimalValue 0 digits) ∨
     (s.toList = '+' :: digits ∧ n = decimalValue 0 digits) ∨
     (s.toList = '-' :: digits ∧ n = -(decimalValue 0 digits : Int)))

/-! ## The data model -/

/-- Modelled from the spec: the struct `model.Student` is declared in
`internal/model`, which is not among the source files; the spec gives the
record the fields id, name, email and age. -/
structure Student where
  Id : Int
  Name : String
  Email : String
  Age : Int
  deriving DecidableEq, Repr

/-- One entry of `validator.ValidationErrors`: the field and the rule it
broke. -/
structure FieldError where
  Field : String
  Tag : String
  deriving DecidableEq, Repr

/-- The type `validator.ValidationErrors`. -/
abbrev ValidationErrors := List FieldError

/-! ## response.go -/

/-- The struct `response.Response`. -/
structure Response where
  Status : String
  Error : String
  deriving DecidableEq, Repr

def StatusOk : String := "OK"

def StatusError : String := "ERROR"

/-- The function `response.GeneralError`. -/
def GeneralError (err : GoError) : Response :=
  { Status := StatusError, Error := err.Error }

/-- The document `encoding/json` produces for a `response.Response`: the
struct carries no field tag, so each member is named by its Go field. -/
def Response.Marshal (r : Response) : Json :=
  .obj [("Status", .str r.Status), ("Error", .str r.Error)]

/-- The values the handlers pass to `WriteJson` as `data interface{}`. -/
inductive Payload where
  -- a response.Response
  | response (r : Response)
  -- the value response.ValidationError(errs); that function is declared
  -- outside the two source files and stays uninterpreted
  | validationError (errs : ValidationErrors)
  -- an error value handed to the encoder as it is
  | error (err : GoError)
  -- a map[string]int64 with the one entry key: value
  | mapInt64 (key : String) (value : Int)
  -- a model.Student
  | student (s : Student)
  -- a []model.Student
  | students (l : List Student)

/-- What `encoding/json` produces for values whose Go types are declared
outside the two source files: a `model.Student`, a `[]model.Student` and the
result of `response.ValidationError`. -/
structure Encoding where
  ofStudent : Student → Json
  ofStudents : List Student → Json
  ofValidationError : ValidationErrors → Json

/-- The document `encoding/json` produces for the value handed to it. -/
def Payload.Marshal (enc : Encoding) : Payload → Json
  | .response r => r.Marshal
  | .validationError errs => enc.ofValidationError errs
  | .error err => err.Marshal
  | .mapInt64 key value => .obj [(key, .num value)]
  | .student s => enc.ofStudent s
  | .students l => enc.ofStudents l

/-- The header map of a response. -/
abbrev Header := List (String × String)

/-- The method `Header.Set`: the key gets exactly this value. -/
def Header.Set (h : Header) (key value : String) : Header :=
  (key, value) :: h.filter (fun p => p.1 != key)

/-- The method `Header.Get`. -/
def Header.Get (h : Header) (key : String) : Option String :=
  (h.find? (fun p => p.1 == key)).map (fun p => p.2)

/-- An `http.ResponseWriter` as the server of `net/http` implements it: the
header map; the informational (1xx) responses sent so far; the status line
of the response once it has been written, together with the headers as they
were at that moment (later changes to the map are not sent); and the values
the JSON encoder has been called with, in order.  What the server does with
the bytes of a body (it drops them for a HEAD request and for a status that
carries no body) is not modelled. -/
structure ResponseWriter where
  header : Header
  Interim : List (Int × Header)
  Sent : Option (Int × Header)
  Body : List Payload

/-- The writer a handler receives for a new request. -/
def ResponseWriter.fresh : ResponseWriter := ⟨[], [], none, []⟩

/-- The method `WriteHeader` of the server, `none` standing for a panic.
Once the status line has been written a further call is logged as
superfluous and changes nothing.  Otherwise `checkWriteHeaderCode` panics
for a code below 100 or above 999; a code from 100 to 199 other than 101 is
sent at once as an informational response (with the current headers, less
Content-Length and Transfer-Encoding) and leaves the status line unwritten;
any other code is written as the status line with the current headers. -/
def ResponseWriter.WriteHeader (w : ResponseWriter) (code : Int) : Option ResponseWriter :=
  match w.Sent with
  | some _ => some w
  | none =>
    if code < 100 ∨ code > 999 then none
    else if 100 ≤ code ∧ code ≤ 199 ∧ code ≠ 101 then
      some { w with
        Interim := w.Interim ++
          [(code, w.header.filter
            (fun p => p.1 != "Content-Length" && p.1 != "Transfer-Encoding"))] }
    else some { w with Sent := some (code, w.header) }

/-- The call `json.NewEncoder(w).Encode(data)`: the value is encoded and
handed to `w.Write` in one call, which writes the status line 200 first
when none has been written. -/
def ResponseWriter.Encode (w : ResponseWriter) (data : Payload) : Option ResponseWriter :=
  (w.WriteHeader 200).map (fun w1 => { w1 with Body := w1.Body ++ [data] })

/-- The function `response.WriteJson`; `none` when `WriteHeader` panics,
in which case the encoder is not reached.  Its `error` result is dropped by
every caller and is not modelled. -/
def WriteJson (w : ResponseWriter) (status : Int) (data : Payload) : Option ResponseWriter :=
  let w1 := { w with header := w.header.Set "Content-Type" "application/json" }
  match w1.WriteHeader status with
  | none => none
  | some w2 => w2.Encode data

/-- The status code of the response, once its status line is written. -/
def ResponseWriter.status (w : ResponseWriter) : Option Int :=
  w.Sent.map (fun p => p.1)

/-- The documents the JSON encoder has produced for this response. -/
def ResponseWriter.Documents (enc : Encoding) (w : ResponseWriter) : List Json :=
  w.Body.map (Payload.Marshal enc)

/-! ## net/http status codes -/

def StatusOK : Int := 200

def StatusCreated : Int := 201

def StatusBadRequest : Int := 400

def StatusInternalServerError : Int := 500

def StatusBadGateway : Int := 502

/-! ## The collaborators of the handlers -/

/-- Modelled from the spec: the interface `storage.Storage` is declared in
`internal/storage`, which is not among the source files; the five methods
and their results are those the handlers call and the spec lists.  Each
method reads and replaces the state `σ` of the store and returns the pair
of a value and an optional error that the Go method returns. -/
structure Storage (σ : Type) where
  CreateStudent : σ → String → String → Int → (Int × Option GoError) × σ
  GetStudentById : σ → Int → (Student × Option GoError) × σ
  GetList : σ → (List Student × Option GoError) × σ
  UpdateById : σ → Int → String → String → Int → (Student × Option GoError) × σ
  DeleteById : σ → Int → (Int × Option GoError) × σ

/-- One invocation of the storage gateway, with its arguments. -/
inductive StorageCall where
  | CreateStudent (name email : String) (age : Int)
  | GetStudentById (id : Int)
  | GetList
  | UpdateById (id : Int) (name email : String) (age : Int)
  | DeleteById (id : Int)
  deriving DecidableEq, Repr

/-- The state outside the request: the store and the record of the calls
made to it so far. -/
structure World (σ : Type) where
  store : σ
  calls : List StorageCall

/-- The struct `StudentHandler` (its one field, the storage) together with
the library functions the handlers use: `strconv.Quote`, the part of
`json.Decoder.Decode` that reads and converts a value once the stream holds
a byte that is not white space, and `validator.New().Struct`, which
returns nil or a `validator.ValidationErrors`. -/
structure Env (σ : Type) where
  storage : Storage σ
  Quote : String → String
  Unmarshal : String → Except GoError Student
  Struct : Student → Option ValidationErrors

/-- The request, by the two parts the handlers read: `r.PathValue("id")`
(the empty string when the route has no such segment) and the bytes of
`r.Body`. -/
structure Request where
  PathId : String
  Body : String

/-- The white space bytes of JSON. -/
def isSpace (c : Char) : Bool :=
  c = ' ' ∨ c = '\t' ∨ c = '\r' ∨ c = '\n'

/-- The call `json.NewDecoder(r.Body).Decode(&student)` on a body that is
read to its end without a transport error: when the stream ends and every
byte read was white space (in particular when there was none) the error
is `io.EOF` itself; otherwise the first value is scanned and converted. -/
def Decode (Unmarshal : String → Except GoError Student) (body : String) :
    Except GoError Student :=
  if body.toList.all isSpace then .error EOF else Unmarshal body

/-! ## student.go -/

/-- The method `StudentHandler.Create`. -/
def Create {σ : Type} (h : Env σ) (w : ResponseWriter) (r : Request) (st : World σ) :
    Option ResponseWriter × World σ :=
  match Decode h.Unmarshal r.Body with
  | .error err =>
    if err.IsEOF then
      (WriteJson w StatusBadRequest (.response (GeneralError (errorsNew "empty body"))), st)
    else
      (WriteJson w StatusBadGateway (.response (GeneralError err)), st)
  | .ok student =>
    -- request validation
    match h.Struct student with
    | some validateErrs =>
      (WriteJson w StatusBadRequest (.validationError validateErrs), st)
    | none =>
      match h.storage.CreateStudent st.store student.Name student.Email student.Age with
      | ((lastId, err), store) =>
        let st1 : World σ :=
          ⟨store, st.calls ++ [.CreateStudent student.Name student.Email student.Age]⟩
        match err with
        | some err => (WriteJson w StatusInternalServerError (.error err), st1)
        | none => (WriteJson w StatusCreated (.mapInt64 "id" lastId), st1)

/-- The method `StudentHandler.Get`. -/
def Get {σ : Type} (h : Env σ) (w : ResponseWriter) (r : Request) (st : World σ) :
    Option ResponseWriter × World σ :=
  match ParseInt r.PathId with
  | .error err =>
    (WriteJson w StatusBadRequest (.response (GeneralError (err.toError h.Quote))), st)
  | .ok intId =>
    match h.storage.GetStudentById st.store intId with
    | ((student, err), store) =>
      let st1 : World σ := ⟨store, st.calls ++ [.GetStudentById intId]⟩
      match err with
      | some err => (WriteJson w StatusInternalServerError (.response (GeneralError err)), st1)
      | none => (WriteJson w StatusOK (.student student), st1)

/-- The method `StudentHandler.GetList`. -/
def GetList {σ : Type} (h : Env σ) (w : ResponseWriter) (_r : Request) (st : World σ) :
    Option ResponseWriter × World σ :=
  match h.storage.GetList st.store with
  | ((students, err), store) =>
    let st1 : World σ := ⟨store, st.calls ++ [.GetList]⟩
    match err with
    | some err => (WriteJson w StatusInternalServerError (.error err), st1)
    | none => (WriteJson w StatusOK (.students students), st1)

/-- The method `StudentHandler.Update`. -/
def Update {σ : Type} (h : Env σ) (w : ResponseWriter) (r : Request) (st : World σ) :
    Option ResponseWriter × World σ :=
  match ParseInt r.PathId with
  | .error err =>
    (WriteJson w StatusBadRequest
      (.response (GeneralError (Errorf_w "invalid id format: " (err.toError h.Quote)))), st)
  | .ok intId =>
    match Decode h.Unmarshal r.Body with
    | .error err =>
      (WriteJson w StatusBadRequest
        (.response (GeneralError (Errorf_w "invalid request payload: " err))), st)
    | .ok student =>
      match h.Struct student with
      | some validateErrs =>
        (WriteJson w StatusBadRequest (.validationError validateErrs), st)
      | none =>
        match h.storage.UpdateById st.store intId student.Name student.Email student.Age with
        | ((updatedStudent, err), store) =>
          let st1 : World σ :=
            ⟨store, st.calls ++ [.UpdateById intId student.Name student.Email student.Age]⟩
          match err with
          | some err =>
            (WriteJson w StatusInternalServerError (.response (GeneralError err)), st1)
          | none => (WriteJson w StatusOK (.student updatedStudent), st1)

/-- The method `StudentHandler.Delete`. -/
def Delete {σ : Type} (h : Env σ) (w : ResponseWriter) (r : Request) (st : World σ) :
    Option ResponseWriter × World σ :=
  match ParseInt r.PathId with
  | .error _ =>
    (WriteJson w StatusBadRequest (.response (GeneralError (errorsNew "invalid student ID"))), st)
  | .ok intId =>
    match h.storage.DeleteById st.store intId with
    | ((deletedId, err), store) =>
      let st1 : World σ := ⟨store, st.calls ++ [.DeleteById intId]⟩
      match err with
      | some err => (WriteJson w StatusInternalServerError (.response (GeneralError err)), st1)
      | none => (WriteJson w StatusOK (.mapInt64 "deleted_id" deletedId), st1)

/-- The five operations of the service. -/
inductive Operation where
  | Create
  | Get
  | GetList
  | Update
  | Delete
  deriving DecidableEq, Repr

/-- The handler that serves an operation. -/
def Operation.handler {σ : Type} (op : Operation) (h : Env σ) :
    ResponseWriter → Request → World σ → Option ResponseWriter × World σ :=
  match op with
  | .Create => GoCrudApi.Create h
  | .Get => GoCrudApi.Get h
  | .GetList => GoCrudApi.GetList h
  | .Update => GoCrudApi.Update h
  | .Delete => GoCrudApi.Delete h

/-! ## A small instance: an in-memory store and toy library functions

Used to evaluate the handlers on concrete requests. -/

/-- The error every call of the failing store returns. -/
def dbDown : GoError := errorsNew "database is locked"

/-- An in-memory store: the records held, newest last; ids count from 1. -/
def memStorage : Storage (List Student) where
  CreateStudent := fun db name email age =>
    (((db.length : Int) + 1, none), db ++ [⟨(db.length : Int) + 1, name, email, age⟩])
  GetStudentById := fun db id =>
    match db.find? (fun s => s.Id = id) with
    | some s => ((s, none), db)
    | none => ((⟨0, "", "", 0⟩, some (errorsNew "no student found")), db)
  GetList := fun db => ((db, none), db)
  UpdateById := fun db id name email age =>
    match db.find? (fun s => s.Id = id) with
    | some _ =>
      ((⟨id, name, email, age⟩, none),
        db.map (fun s => if s.Id = id then ⟨id, name, email, age⟩ else s))
    | none => ((⟨0, "", "", 0⟩, some (errorsNew "no student found")), db)
  DeleteById := fun db id =>
    match db.find? (fun s => s.Id = id) with
    | some _ => ((id, none), db.filter (fun s => s.Id ≠ id))
    | none => ((0, some (errorsNew "no student found")), db)

/-- A store whose every call fails. -/
def downStorage : Storage (List Student) where
  CreateStudent := fun db _ _ _ => ((0, some dbDown), db)
  GetStudentById := fun db _ => ((⟨0, "", "", 0⟩, some dbDown), db)
  GetList := fun db => (([], some dbDown), db)
  UpdateById := fun db _ _ _ _ => ((⟨0, "", "", 0⟩, some dbDown), db)
  DeleteById := fun db _ => ((0, some dbDown), db)

/-- A stand-in for the value decoder that knows three bodies. -/
def toyUnmarshal (body : String) : Except GoError Student :=
  if body = "ada" then .ok ⟨0, "Ada", "ada@x.com", 30⟩
  else if body = "anonymous" then .ok ⟨0, "", "nobody@x.com", 30⟩
  else .error (errorsNew "invalid character")

/-- A stand-in for the validator: the name is required. -/
def toyStruct (s : Student) : Option ValidationErrors :=
  if s.Name = "" then some [⟨"Name", "required"⟩] else none

/-- Quoting for text without special characters. -/
def toyQuote (s : String) : String := "\"" ++ s ++ "\""

def memEnv : Env (List Student) := ⟨memStorage, toyQuote, toyUnmarshal, toyStruct⟩

def downEnv : Env (List Student) := ⟨downStorage, toyQuote, toyUnmarshal, toyStruct⟩

/-- The store before the first request: no record, no call made yet. -/
def emptyWorld : World (List Student) := ⟨[], []⟩

/-- A stand-in for the encoder of the types declared elsewhere, following
the record shape the spec gives. -/
def toyEncoding : Encoding where
  ofStudent := fun s =>
    .obj [("id", .num s.Id), ("name", .str s.Name), ("email", .str s.Email),
      ("age", .num s.Age)]
  ofStudents := fun l =>
    .arr (l.map (fun s =>
      .obj [("id", .num s.Id), ("name", .str s.Name), ("email", .str s.Email),
        ("age", .num s.Age)]))
  ofValidationError := fun errs =>
    .obj [("Status", .str "ERROR"), ("Error", .arr (errs.map (fun e => .str e.Field)))]

/-- A store holding one record, with no call made yet. -/
def oneAda : World (List Student) := ⟨[⟨1, "Ada", "ada@x.com", 30⟩], []⟩

/-! ## strconv.ParseInt accepts exactly the decimal numerals of 64-bit integers -/

theorem decimalValue_cons (n : Nat) (c : Char) (cs : List Char) :
    decimalValue n (c :: cs) = decimalValue (n * 10 + (c.toNat - 48)) cs := rfl

theorem le_decimalValue (cs : List Char) (n : Nat) : n ≤ decimalValue n cs := by
  induction cs generalizing n with
  | nil => exact Nat.le_refl n
  | cons c cs ih =>
    have h := ih (n * 10 + (c.toNat - 48))
    have h0 : n ≤ n * 10 + (c.toNat - 48) := by
      generalize c.toNat - 48 = d
      omega
    exact Nat.le_trans h0 h

theorem parseUintLoop_step (s0 : String) (c : Char) (cs : List Char) (n : Nat)
    (hc : 48 ≤ c.toNat ∧ c.toNat ≤ 57) (h1 : n * 10 + (c.toNat - 48) < 2 ^ 64) :
    parseUintLoop s0 (c :: cs) n = parseUintLoop s0 cs (n * 10 + (c.toNat - 48)) := by
  rw [parseUintLoop]
  generalize c.toNat - 48 = d at h1 ⊢
  have h2 : ¬ n ≥ maxUint64 / 10 + 1 := by
    simp only [maxUint64]; omega
  have h3 : n * 10 % 2 ^ 64 = n * 10 := Nat.mod_eq_of_lt (by omega)
  have h4 : (n * 10 + d) % 2 ^ 64 = n * 10 + d := Nat.mod_eq_of_lt h1
  have h5 : ¬ (n * 10 + d < n * 10 ∨ n * 10 + d > maxUint64) := by
    simp only [maxUint64]; omega
  simp only [hc, and_self, if_true, h2, if_false, h3, h4, h5]

theorem parseUintLoop_ok (s0 : String) (cs : List Char) (n : Nat)
    (hall : cs.all isDigit = true) (hval : decimalValue n cs ≤ maxUint64) :
    parseUintLoop s0 cs n = (decimalValue n cs, none) := by
  induction cs generalizing n with
  | nil => rfl
  | cons c cs ih =>
    simp only [List.all_cons, Bool.and_eq_true] at hall
    obtain ⟨hc, hcs⟩ := hall
    simp only [isDigit, decide_eq_true_eq] at hc
    rw [decimalValue_cons] at hval ⊢
    have hle := le_decimalValue cs (n * 10 + (c.toNat - 48))
    have h1 : n * 10 + (c.toNat - 48) < 2 ^ 64 := by
      have h0 := Nat.le_trans hle hval
      generalize n * 10 + (c.toNat - 48) = m at h0 ⊢
      simp only [maxUint64] at h0
      omega
    rw [parseUintLoop_step s0 c cs n hc h1]
    exact ih _ hcs hval

theorem parseUintLoop_overflow (s0 : String) (c : Char) (cs : List Char) (n : Nat)
    (hc : 48 ≤ c.toNat ∧ c.toNat ≤ 57)
    (h1 : ¬ n * 10 + (c.toNat - 48) < 2 ^ 64) :
    parseUintLoop s0 (c :: cs) n = (maxUint64, some (rangeError fnParseUint s0)) := by
  rw [parseUintLoop]
  simp only [hc, and_self, if_true]
  have hd : c.toNat - 48 ≤ 9 := by
    obtain ⟨ha, hb⟩ := hc
    generalize c.toNat = k at ha hb ⊢
    omega
  generalize c.toNat - 48 = d at h1 hd ⊢
  by_cases h2 : n ≥ maxUint64 / 10 + 1
  · simp only [h2, if_true]
  · have h3 : n * 10 % 2 ^ 64 = n * 10 :=
      Nat.mod_eq_of_lt (by simp only [maxUint64] at h2; omega)
    have h4 : (n * 10 + d) % 2 ^ 64 = n * 10 + d - 2 ^ 64 := by
      rw [Nat.mod_eq_sub_mod (by omega)]
      exact Nat.mod_eq_of_lt (by simp only [maxUint64] at h2; omega)
    have h5 : n * 10 + d - 2 ^ 64 < n * 10 ∨ n * 10 + d - 2 ^ 64 > maxUint64 := by
      left; omega
    simp only [h2, if_false, h3, h4, h5, if_true]

theorem parseUintLoop_err (s0 : String) (cs : List Char) (n : Nat) (hn : n ≤ maxUint64)
    (hbad : ¬ (cs.all isDigit = true ∧ decimalValue n cs ≤ maxUint64)) :
    ∃ v e, parseUintLoop s0 cs n = (v, some e) ∧
      (e.Err = .ErrSyntax ∨ (e.Err = .ErrRange ∧ v = maxUint64)) := by
  induction cs generalizing n with
  | nil => exact absurd ⟨rfl, hn⟩ hbad
  | cons c cs ih =>
    by_cases hc : 48 ≤ c.toNat ∧ c.toNat ≤ 57
    · by_cases h1 : n * 10 + (c.toNat - 48) < 2 ^ 64
      · rw [parseUintLoop_step s0 c cs n hc h1]
        apply ih
        · simp only [maxUint64]; generalize n * 10 + (c.toNat - 48) = m at h1 ⊢; omega
        · intro hgood
          apply hbad
          rw [decimalValue_cons]
          refine ⟨?_, hgood.2⟩
          simp only [List.all_cons, Bool.and_eq_true, isDigit, decide_eq_true_eq]
          exact ⟨hc, hgood.1⟩
      · exact ⟨_, _, parseUintLoop_overflow s0 c cs n hc h1, Or.inr ⟨rfl, rfl⟩⟩
    · refine ⟨0, syntaxError fnParseUint s0, ?_, Or.inl rfl⟩
      rw [parseUintLoop]
      simp only [hc, if_false]

theorem ParseUint_ok (ds : List Char) (hne : ds ≠ []) (hall : ds.all isDigit = true)
    (hval : decimalValue 0 ds ≤ maxUint64) : ParseUint ds = (decimalValue 0 ds, none) := by
  unfold ParseUint
  rw [if_neg hne]
  exact parseUintLoop_ok _ ds 0 hall hval

theorem ParseUint_err (ds : List Char)
    (hbad : ¬ (ds ≠ [] ∧ ds.all isDigit = true ∧ decimalValue 0 ds ≤ maxUint64)) :
    ∃ v e, ParseUint ds = (v, some e) ∧
      (e.Err = .ErrSyntax ∨ (e.Err = .ErrRange ∧ v = maxUint64)) := by
  unfold ParseUint
  by_cases hne : ds = []
  · rw [if_pos hne]
    exact ⟨_, _, rfl, Or.inl rfl⟩
  · rw [if_neg hne]
    apply parseUintLoop_err
    · simp [maxUint64]
    · intro hgood
      exact hbad ⟨hne, hgood⟩

theorem ParseInt_cons (s0 : String) (c : Char) (rest : List Char)
    (h : s0.toList = c :: rest) :
    ParseInt s0 =
      signedResult s0 (c = '-') (if c = '+' ∨ c = '-' then rest else c :: rest) := by
  unfold ParseInt signedResult
  rw [h]

theorem signedResult_ok_iff (s0 : String) (neg : Prop) [Decidable neg] (ds : List Char)
    (n : Int) :
    signedResult s0 neg ds = .ok n ↔
      ds ≠ [] ∧ ds.all isDigit = true ∧
        ((¬ neg ∧ decimalValue 0 ds < 2 ^ 63 ∧ n = decimalValue 0 ds) ∨
         (neg ∧ decimalValue 0 ds ≤ 2 ^ 63 ∧ n = -(decimalValue 0 ds : Int))) := by
  by_cases hgood : ds ≠ [] ∧ ds.all isDigit = true ∧ decimalValue 0 ds ≤ maxUint64
  · obtain ⟨hne, hall, hval⟩ := hgood
    have hp := ParseUint_ok ds hne hall hval
    unfold signedResult
    rw [hp]
    simp only [Option.filter, hne, hall, ne_eq, not_false_eq_true, true_and]
    generalize decimalValue 0 ds = v at hval ⊢
    by_cases hneg : neg
    · by_cases hv : v > 2 ^ 63
      · simp only [hneg, not_true_eq_false, false_and, if_false, hv, and_self, if_true]
        constructor
        · intro h; cases h
        · rintro (h | ⟨_, h, _⟩)
          · exact h.elim
          · omega
      · simp only [hneg, not_true_eq_false, false_and, if_false, hv, and_false, if_true,
          Except.ok.injEq, true_and, false_or]
        constructor
        · intro h; exact ⟨by omega, h.symm⟩
        · intro h; exact h.2.symm
    · by_cases hv : v ≥ 2 ^ 63
      · simp only [hneg, not_false_eq_true, hv, and_self, if_true, false_and, or_false, true_and]
        constructor
        · intro h; cases h
        · rintro ⟨h, _⟩; omega
      · simp only [hneg, not_false_eq_true, hv, and_false, if_false, false_and, or_false,
          true_and, Except.ok.injEq]
        constructor
        · intro h; exact ⟨by omega, h.symm⟩
        · intro h; exact h.2.symm
  · obtain ⟨v, e, hp, he⟩ := ParseUint_err ds hgood
    have hleft : ∀ m, signedResult s0 neg ds ≠ .ok m := by
      intro m
      unfold signedResult
      rw [hp]
      rcases he with he | ⟨he, hv⟩
      · simp [Option.filter, he]
      · subst hv
        by_cases hneg : neg <;> simp [Option.filter, he, hneg, maxUint64]
    constructor
    · intro h; exact absurd h (hleft n)
    · rintro ⟨hne, hall, hr⟩
      exfalso
      apply hgood
      refine ⟨hne, hall, ?_⟩
      simp only [maxUint64]
      rcases hr with ⟨_, h, _⟩ | ⟨_, h, _⟩ <;> omega

/-- ParseInt accepts exactly the base-10 numerals of 64-bit integers, and
returns the integer written. -/
theorem ParseInt_ok_iff (s : String) (n : Int) : ParseInt s = .ok n ↔ DecimalInt64 s n := by
  cases hl : s.toList with
  | nil =>
    have hp : ParseInt s = .error (syntaxError fnParseInt s) := by
      unfold ParseInt; rw [hl]
    rw [hp]
    constructor
    · intro h; cases h
    · rintro ⟨digits, hne, _, _, _, h | h | h⟩
      · rw [hl] at h; exact absurd h.1.symm hne
      · rw [hl] at h; cases h.1
      · rw [hl] at h; cases h.1
  | cons c rest =>
    rw [ParseInt_cons s c rest hl, signedResult_ok_iff]
    unfold DecimalInt64
    rw [hl]
    by_cases hplus : c = '+'
    · subst hplus
      have hnm : ¬ ('+' = '-') := by decide
      simp only [true_or, if_true, hnm, not_false_eq_true, true_and, false_and, or_false]
      constructor
      · rintro ⟨hne, hall, hv, hn⟩
        refine ⟨rest, hne, hall, ?_, ?_, Or.inr (Or.inl ⟨rfl, hn⟩)⟩ <;> omega
      · rintro ⟨digits, hne, hall, hlo, hhi, h | h | h⟩
        · obtain ⟨h1, _⟩ := h
          subst h1
          simp [isDigit] at hall
        · obtain ⟨h1, h2⟩ := h
          cases h1
          exact ⟨hne, hall, by omega, h2⟩
        · cases h.1
    · by_cases hminus : c = '-'
      · subst hminus
        simp only [or_true, if_true, not_true_eq_false, false_and, true_and, false_or]
        constructor
        · rintro ⟨hne, hall, hv, hn⟩
          refine ⟨rest, hne, hall, ?_, ?_, Or.inr (Or.inr ⟨rfl, hn⟩)⟩ <;> omega
        · rintro ⟨digits, hne, hall, hlo, hhi, h | h | h⟩
          · obtain ⟨h1, _⟩ := h
            subst h1
            simp [isDigit] at hall
          · cases h.1
          · obtain ⟨h1, h2⟩ := h
            cases h1
            exact ⟨hne, hall, by omega, h2⟩
      · simp only [hplus, hminus, or_self, if_false, not_false_eq_true, true_and, false_and,
          or_false]
        constructor
        · rintro ⟨hne, hall, hv, hn⟩
          refine ⟨c :: rest, hne, hall, ?_, ?_, Or.inl ⟨rfl, hn⟩⟩ <;> omega
        · rintro ⟨digits, hne, hall, hlo, hhi, h | h | h⟩
          · obtain ⟨h1, h2⟩ := h
            subst h1
            exact ⟨hne, hall, by omega, h2⟩
          · exact absurd (List.cons.inj h.1).1 hplus
          · exact absurd (List.cons.inj h.1).1 hminus

/-! ## Facts about the writer and the decoder -/

/-- With a status the server takes as the status of the response (101, or
200 to 999), WriteJson does not panic: it sets the header, writes the status
line unless one was written before, and calls the encoder once. -/
theorem WriteJson_final (w : ResponseWriter) (status : Int) (data : Payload)
    (hlo : status = 101 ∨ 200 ≤ status) (hhi : status ≤ 999) :
    WriteJson w status data = some
      { header := w.header.Set "Content-Type" "application/json",
        Interim := w.Interim,
        Sent := some (w.Sent.getD (status, w.header.Set "Content-Type" "application/json")),
        Body := w.Body ++ [data] } := by
  have h1 : ¬ (status < 100 ∨ status > 999) := by omega
  have h2 : ¬ (100 ≤ status ∧ status ≤ 199 ∧ status ≠ 101) := by omega
  cases hw : w.Sent <;>
    simp [WriteJson, ResponseWriter.Encode, ResponseWriter.WriteHeader, hw, h1, h2]

/-- A handler result that is one WriteJson call with a status from 200 to
999, spelled out: the call returned a writer, the encoder was called once
more, with that value, and on a writer that had not written its status line
the status line is the given status with Content-Type set. -/
theorem answer_of_eq {α : Type} (out : Option ResponseWriter × α) (w : ResponseWriter)
    (status : Int) (data : Payload) (x : α) (hlo : 200 ≤ status) (hhi : status ≤ 999)
    (h : out = (WriteJson w status data, x)) :
    ∃ w1, out = (some w1, x) ∧ WriteJson w status data = some w1 ∧
      w1.Body = w.Body ++ [data] ∧
      (w.Sent = none →
        w1.Sent = some (status, w.header.Set "Content-Type" "application/json")) := by
  have hf := WriteJson_final w status data (Or.inr hlo) hhi
  refine ⟨_, ?_, hf, rfl, ?_⟩
  · rw [h, hf]
  · intro hw
    simp [hw]

/-- With a status the server accepts, WriteJson does not panic and calls
the encoder exactly once, with the value it was given. -/
theorem WriteJson_Body (w : ResponseWriter) (status : Int) (data : Payload)
    (hlo : 100 ≤ status) (hhi : status ≤ 999) :
    ∃ w1, WriteJson w status data = some w1 ∧ w1.Body = w.Body ++ [data] := by
  have h1 : ¬ (status < 100 ∨ status > 999) := by omega
  cases hw : w.Sent with
  | some p =>
    refine ⟨⟨w.header.Set "Content-Type" "application/json", w.Interim, some p,
      w.Body ++ [data]⟩, ?_, rfl⟩
    simp [WriteJson, ResponseWriter.Encode, ResponseWriter.WriteHeader, hw]
  | none =>
    by_cases h2 : 100 ≤ status ∧ status ≤ 199 ∧ status ≠ 101
    · refine ⟨⟨w.header.Set "Content-Type" "application/json",
        w.Interim ++ [(status, (w.header.Set "Content-Type" "application/json").filter
          (fun p => p.1 != "Content-Length" && p.1 != "Transfer-Encoding"))],
        some (200, w.header.Set "Content-Type" "application/json"), w.Body ++ [data]⟩, ?_, rfl⟩
      simp [WriteJson, ResponseWriter.Encode, ResponseWriter.WriteHeader, hw, h1, h2]
    · refine ⟨⟨w.header.Set "Content-Type" "application/json", w.Interim,
        some (status, w.header.Set "Content-Type" "application/json"), w.Body ++ [data]⟩,
        ?_, rfl⟩
      simp [WriteJson, ResponseWriter.Encode, ResponseWriter.WriteHeader, hw, h1, h2]

theorem Header_Get_Set (hd : Header) (key value : String) :
    (hd.Set key value).Get key = some value := by
  simp [Header.Set, Header.Get, List.find?]

/-- The decoder reports `io.EOF` for a body with no byte. -/
theorem Decode_empty (U : String → Except GoError Student) : Decode U "" = .error EOF := by
  simp [Decode]

/-- The decoder reports `io.EOF` for a body of white space only. -/
theorem Decode_blank (U : String → Except GoError Student) (body : String)
    (hblank : body.toList.all isSpace = true) : Decode U body = .error EOF := by
  simp only [Decode, hblank, if_true]

/-- The path id absent from the route does not parse. -/
theorem ParseInt_empty : ParseInt "" = .error (syntaxError fnParseInt "") := by
  rfl

/-! ## Storage failures (C1) -/

/-- On a storage failure Get, Update and Delete answer 500 with the
envelope `GeneralError(err)`. -/
theorem storage_failure_Get_Update_Delete {σ : Type} (h : Env σ) (w : ResponseWriter)
    (r : Request) (st : World σ) (intId : Int) (hid : ParseInt r.PathId = .ok intId) :
    (∀ s e store, h.storage.GetStudentById st.store intId = ((s, some e), store) →
      (Get h w r st).1 = WriteJson w 500 (.response (GeneralError e))) ∧
    (∀ s u e store, Decode h.Unmarshal r.Body = .ok s → h.Struct s = none →
      h.storage.UpdateById st.store intId s.Name s.Email s.Age = ((u, some e), store) →
      (Update h w r st).1 = WriteJson w 500 (.response (GeneralError e))) ∧
    (∀ d e store, h.storage.DeleteById st.store intId = ((d, some e), store) →
      (Delete h w r st).1 = WriteJson w 500 (.response (GeneralError e))) := by
  refine ⟨?_, ?_, ?_⟩
  · intro s e store hs
    simp [Get, hid, hs, StatusInternalServerError]
  · intro s u e store hdec hval hs
    simp [Update, hid, hdec, hval, hs, StatusInternalServerError]
  · intro d e store hs
    simp [Delete, hid, hs, StatusInternalServerError]

/-- C1 (as the code behaves): when `CreateStudent` fails, Create answers 500
and hands the error value itself to the encoder, and when `GetList` fails so
does GetList; the value written is not the envelope `GeneralError(err)`. -/
theorem storage_failure_Create_GetList_write_raw_error {σ : Type} (h : Env σ)
    (w : ResponseWriter) (r : Request) (st : World σ) (s : Student) (n : Int)
    (l : List Student) (e1 e2 : GoError) (store1 store2 : σ)
    (hdec : Decode h.Unmarshal r.Body = .ok s) (hval : h.Struct s = none)
    (hcreate : h.storage.CreateStudent st.store s.Name s.Email s.Age = ((n, some e1), store1))
    (hlist : h.storage.GetList st.store = ((l, some e2), store2)) :
    (Create h w r st).1 = WriteJson w 500 (.error e1) ∧
    (GetList h w r st).1 = WriteJson w 500 (.error e2) ∧
    (∃ w1, (Create h w r st).1 = some w1 ∧ w1.Body = w.Body ++ [.error e1] ∧
      (w.Sent = none →
        w1.Sent = some (500, w.header.Set "Content-Type" "application/json"))) ∧
    (∃ w2, (GetList h w r st).1 = some w2 ∧ w2.Body = w.Body ++ [.error e2] ∧
      (w.Sent = none →
        w2.Sent = some (500, w.header.Set "Content-Type" "application/json"))) ∧
    Payload.error e1 ≠ Payload.response (GeneralError e1) ∧
    Payload.error e2 ≠ Payload.response (GeneralError e2) := by
  have hc : (Create h w r st).1 = WriteJson w 500 (.error e1) := by
    simp [Create, hdec, hval, hcreate, StatusInternalServerError]
  have hg : (GetList h w r st).1 = WriteJson w 500 (.error e2) := by
    simp [GetList, hlist, StatusInternalServerError]
  have hf1 := WriteJson_final w 500 (.error e1) (by decide) (by decide)
  have hf2 := WriteJson_final w 500 (.error e2) (by decide) (by decide)
  refine ⟨hc, hg, ⟨_, hc.trans hf1, rfl, ?_⟩, ⟨_, hg.trans hf2, rfl, ?_⟩, ?_, ?_⟩
  · intro hw; simp [hw]
  · intro hw; simp [hw]
  · intro hne; cases hne
  · intro hne; cases hne

/-- The failing input of C1, evaluated: with a store that is down, Create
and GetList answer 500 and encode the error value, which `encoding/json`
renders as the empty object, not as the envelope with the message. -/
theorem storage_failure_Create_GetList_write_raw_error_witness :
    (Create downEnv .fresh ⟨"", "ada"⟩ oneAda).1 = WriteJson .fresh 500 (.error dbDown) ∧
    (GetList downEnv .fresh ⟨"", "ada"⟩ oneAda).1 = WriteJson .fresh 500 (.error dbDown) ∧
    (∃ w1, (Create downEnv .fresh ⟨"", "ada"⟩ oneAda).1 = some w1 ∧
      w1.Body = [.error dbDown] ∧
      w1.Sent = some (500, [("Content-Type", "application/json")])) ∧
    (∃ w2, (GetList downEnv .fresh ⟨"", "ada"⟩ oneAda).1 = some w2 ∧
      w2.Body = [.error dbDown] ∧
      w2.Sent = some (500, [("Content-Type", "application/json")])) ∧
    Payload.error dbDown ≠ Payload.response (GeneralError dbDown) :=
  let ⟨hc, hg, ⟨w1, h1, h2, h3⟩, ⟨w2, k1, k2, k3⟩, hne, _⟩ :=
    storage_failure_Create_GetList_write_raw_error downEnv .fresh ⟨"", "ada"⟩ oneAda
      ⟨0, "Ada", "ada@x.com", 30⟩ 0 [] dbDown dbDown oneAda.store oneAda.store
      rfl rfl rfl rfl
  ⟨hc, hg, ⟨w1, h1, h2, h3 rfl⟩, ⟨w2, k1, k2, k3 rfl⟩, hne⟩

/-- The two documents at the failing input of C1: the error value encodes
with no member, the envelope with the members Status and Error. -/
theorem dbDown_documents (enc : Encoding) :
    (Payload.error dbDown).Marshal enc = .obj [] ∧
    (Payload.response (GeneralError dbDown)).Marshal enc =
      .obj [("Status", .str "ERROR"), ("Error", .str "database is locked")] ∧
    (Payload.error dbDown).Marshal enc ≠ (Payload.response (GeneralError dbDown)).Marshal enc := by
  refine ⟨rfl, rfl, ?_⟩
  simp [Payload.Marshal, dbDown, errorsNew, Response.Marshal]

/-! ## Empty body (C2) -/

/-- C2 (as the code behaves): for a body of no bytes Create answers 400 with
the envelope whose message is "empty body", and Update, for a path id that
parses, answers 400 with the envelope whose message is
"invalid request payload: EOF" (it has no branch for `io.EOF`); neither
touches the store or calls it. -/
theorem empty_body_rejected {σ : Type} (h : Env σ) (w : ResponseWriter) (r : Request)
    (st : World σ) (hbody : r.Body = "") :
    (∃ w1, Create h w r st = (some w1, st) ∧
      WriteJson w 400 (.response ⟨"ERROR", "empty body"⟩) = some w1 ∧
      w1.Body = w.Body ++ [.response ⟨"ERROR", "empty body"⟩] ∧
      (w.Sent = none →
        w1.Sent = some (400, w.header.Set "Content-Type" "application/json"))) ∧
    (∀ intId, ParseInt r.PathId = .ok intId →
      ∃ w1, Update h w r st = (some w1, st) ∧
        WriteJson w 400 (.response ⟨"ERROR", "invalid request payload: EOF"⟩) = some w1 ∧
        w1.Body = w.Body ++ [.response ⟨"ERROR", "invalid request payload: EOF"⟩] ∧
        (w.Sent = none →
          w1.Sent = some (400, w.header.Set "Content-Type" "application/json"))) := by
  constructor
  · apply answer_of_eq _ w 400 _ st (by decide) (by decide)
    simp [Create, hbody, Decode_empty, EOF, GeneralError, errorsNew, StatusBadRequest,
      StatusError]
  · intro intId hid
    apply answer_of_eq _ w 400 _ st (by decide) (by decide)
    simp [Update, hid, hbody, Decode_empty, EOF, GeneralError, Errorf_w, StatusBadRequest,
      StatusError]

/-- The failing input of C2, evaluated: POST /students with no body on the
empty store gives 400 "empty body"; PUT /students/1 with no body gives 400
with the message "invalid request payload: EOF". -/
theorem empty_body_rejected_witness :
    (∃ w1, Create memEnv .fresh ⟨"", ""⟩ emptyWorld = (some w1, emptyWorld) ∧
      WriteJson .fresh 400 (.response ⟨"ERROR", "empty body"⟩) = some w1 ∧
      w1.Body = [.response ⟨"ERROR", "empty body"⟩] ∧
      w1.Sent = some (400, [("Content-Type", "application/json")])) ∧
    (∃ w1, Update memEnv .fresh ⟨"1", ""⟩ oneAda = (some w1, oneAda) ∧
      WriteJson .fresh 400 (.response ⟨"ERROR", "invalid request payload: EOF"⟩) = some w1 ∧
      w1.Body = [.response ⟨"ERROR", "invalid request payload: EOF"⟩] ∧
      w1.Sent = some (400, [("Content-Type", "application/json")])) :=
  ⟨let ⟨w1, h1, h2, h3, h4⟩ := (empty_body_rejected memEnv .fresh ⟨"", ""⟩ emptyWorld rfl).1
   ⟨w1, h1, h2, h3, h4 rfl⟩,
   let ⟨w1, h1, h2, h3, h4⟩ := (empty_body_rejected memEnv .fresh ⟨"1", ""⟩ oneAda rfl).2 1 rfl
   ⟨w1, h1, h2, h3, h4 rfl⟩⟩

/-- The message Update writes for a body of no bytes is not "empty body". -/
theorem empty_body_Update_message :
    (Update memEnv .fresh ⟨"1", ""⟩ oneAda).1.map (fun w1 => w1.Body) =
      some [.response ⟨"ERROR", "invalid request payload: EOF"⟩] ∧
    (Update memEnv .fresh ⟨"1", ""⟩ oneAda).1.map (fun w1 => w1.Body) ≠
      some [.response ⟨"ERROR", "empty body"⟩] := by
  have hb : (Update memEnv .fresh ⟨"1", ""⟩ oneAda).1.map (fun w1 => w1.Body) =
      some [.response ⟨"ERROR", "invalid request payload: EOF"⟩] := rfl
  refine ⟨hb, ?_⟩
  rw [hb]
  intro hne
  simp at hne

/-! ## Invalid path id (C3) -/

/-- C3: when the path id is missing (empty), or ParseInt returns no
integer for it, or it is not a base-10 numeral of a 64-bit integer, ParseInt
returns an error `e` and Get, Update and Delete each answer 400 with an
envelope about the id (the message of `e`; "invalid id format: " followed by
it; "invalid student ID"), leaving the store and the record of calls as they
were; Update does so whatever the body holds. -/
theorem invalid_id_rejected {σ : Type} (h : Env σ) (w : ResponseWriter) (r : Request)
    (st : World σ)
    (hid : r.PathId = "" ∨ (∀ n, ParseInt r.PathId ≠ .ok n) ∨
      (∀ n, ¬ DecimalInt64 r.PathId n)) :
    ∃ e, ParseInt r.PathId = .error e ∧
      Get h w r st =
        (WriteJson w 400 (.response ⟨"ERROR", (e.toError h.Quote).Error⟩), st) ∧
      Update h w r st =
        (WriteJson w 400
          (.response ⟨"ERROR", "invalid id format: " ++ (e.toError h.Quote).Error⟩), st) ∧
      Delete h w r st = (WriteJson w 400 (.response ⟨"ERROR", "invalid student ID"⟩), st) := by
  have hne : ∀ n, ParseInt r.PathId ≠ .ok n := by
    rcases hid with h0 | h1 | h2
    · intro n hn
      rw [h0, ParseInt_empty] at hn
      cases hn
    · exact h1
    · intro n hn
      exact h2 n ((ParseInt_ok_iff r.PathId n).mp hn)
  cases hp : ParseInt r.PathId with
  | ok n => exact absurd hp (hne n)
  | error e =>
    refine ⟨e, rfl, ?_, ?_, ?_⟩
    · simp [Get, hp, GeneralError, StatusBadRequest, StatusError]
    · simp [Update, hp, GeneralError, Errorf_w, StatusBadRequest, StatusError]
    · simp [Delete, hp, GeneralError, errorsNew, StatusBadRequest, StatusError]

/-- The theorem of C3 at the path id "12a", for which ParseInt returns a
syntax error. -/
theorem invalid_id_rejected_witness :
    ParseInt "12a" = .error (syntaxError fnParseInt "12a") ∧
    ∃ e, ParseInt "12a" = .error e ∧
      Get memEnv .fresh ⟨"12a", "ada"⟩ oneAda =
        (WriteJson .fresh 400 (.response ⟨"ERROR", (e.toError toyQuote).Error⟩), oneAda) ∧
      Update memEnv .fresh ⟨"12a", "ada"⟩ oneAda =
        (WriteJson .fresh 400
          (.response ⟨"ERROR", "invalid id format: " ++ (e.toError toyQuote).Error⟩), oneAda) ∧
      Delete memEnv .fresh ⟨"12a", "ada"⟩ oneAda =
        (WriteJson .fresh 400 (.response ⟨"ERROR", "invalid student ID"⟩), oneAda) :=
  ⟨rfl, invalid_id_rejected memEnv .fresh ⟨"12a", "ada"⟩ oneAda
    (Or.inr (Or.inl (fun n hn => by
      have h0 : ParseInt "12a" = .error (syntaxError fnParseInt "12a") := rfl
      rw [h0] at hn
      cases hn)))⟩

/-! ## Validation before storage (C4) -/

/-- C4: in Create and Update a decoded record that the validator refuses is
answered with 400 and the validation-error body, with the store untouched and
no call recorded; and on every input each handler makes either no call or
exactly one, CreateStudent with the decoded name, email and age
(UpdateById with the parsed path id and those three), and that one call is
made only for a decoded record the validator accepted. -/
theorem storage_only_after_validation {σ : Type} (h : Env σ) (w : ResponseWriter)
    (r : Request) (st : World σ) :
    (∀ s errs, Decode h.Unmarshal r.Body = .ok s → h.Struct s = some errs →
      Create h w r st = (WriteJson w 400 (.validationError errs), st)) ∧
    (∀ intId s errs, ParseInt r.PathId = .ok intId → Decode h.Unmarshal r.Body = .ok s →
      h.Struct s = some errs →
      Update h w r st = (WriteJson w 400 (.validationError errs), st)) ∧
    ((Create h w r st).2 = st ∨
      ∃ s, Decode h.Unmarshal r.Body = .ok s ∧ h.Struct s = none ∧
        (Create h w r st).2.calls = st.calls ++ [.CreateStudent s.Name s.Email s.Age] ∧
        (Create h w r st).2.store =
          (h.storage.CreateStudent st.store s.Name s.Email s.Age).2) ∧
    ((Update h w r st).2 = st ∨
      ∃ intId s, ParseInt r.PathId = .ok intId ∧ Decode h.Unmarshal r.Body = .ok s ∧
        h.Struct s = none ∧
        (Update h w r st).2.calls = st.calls ++ [.UpdateById intId s.Name s.Email s.Age] ∧
        (Update h w r st).2.store =
          (h.storage.UpdateById st.store intId s.Name s.Email s.Age).2) := by
  refine ⟨?_, ?_, ?_, ?_⟩
  · intro s errs hdec hval
    simp [Create, hdec, hval, StatusBadRequest]
  · intro intId s errs hid hdec hval
    simp [Update, hid, hdec, hval, StatusBadRequest]
  · cases hdec : Decode h.Unmarshal r.Body with
    | error e =>
      left
      by_cases he : e.IsEOF = true <;> simp [Create, hdec, he]
    | ok s =>
      cases hval : h.Struct s with
      | some errs => left; simp [Create, hdec, hval]
      | none =>
        right
        refine ⟨s, rfl, hval, ?_, ?_⟩
        · rcases hs : h.storage.CreateStudent st.store s.Name s.Email s.Age with ⟨⟨n, e⟩, store⟩
          cases e <;> simp [Create, hdec, hval, hs]
        · rcases hs : h.storage.CreateStudent st.store s.Name s.Email s.Age with ⟨⟨n, e⟩, store⟩
          cases e <;> simp [Create, hdec, hval, hs]
  · cases hid : ParseInt r.PathId with
    | error e => left; simp [Update, hid]
    | ok intId =>
      cases hdec : Decode h.Unmarshal r.Body with
      | error e => left; simp [Update, hid, hdec]
      | ok s =>
        cases hval : h.Struct s with
        | some errs => left; simp [Update, hid, hdec, hval]
        | none =>
          right
          refine ⟨intId, s, rfl, rfl, hval, ?_, ?_⟩
          · rcases hs : h.storage.UpdateById st.store intId s.Name s.Email s.Age with
              ⟨⟨u, e⟩, store⟩
            cases e <;> simp [Update, hid, hdec, hval, hs]
          · rcases hs : h.storage.UpdateById st.store intId s.Name s.Email s.Age with
              ⟨⟨u, e⟩, store⟩
            cases e <;> simp [Update, hid, hdec, hval, hs]

/-- The theorem of C4 at a body whose record has no name, which the
validator refuses. -/
theorem storage_only_after_validation_witness :
    Create memEnv .fresh ⟨"1", "anonymous"⟩ oneAda =
      (WriteJson .fresh 400 (.validationError [⟨"Name", "required"⟩]), oneAda) ∧
    Update memEnv .fresh ⟨"1", "anonymous"⟩ oneAda =
      (WriteJson .fresh 400 (.validationError [⟨"Name", "required"⟩]), oneAda) :=
  ⟨(storage_only_after_validation memEnv .fresh ⟨"1", "anonymous"⟩ oneAda).1
      ⟨0, "", "nobody@x.com", 30⟩ [⟨"Name", "required"⟩] rfl rfl,
   (storage_only_after_validation memEnv .fresh ⟨"1", "anonymous"⟩ oneAda).2.1 1
      ⟨0, "", "nobody@x.com", 30⟩ [⟨"Name", "required"⟩] rfl rfl rfl⟩

/-! ## The error envelope as JSON (C5) -/

/-- C5 fails on the member names: the document WriteJson makes the encoder
produce for the envelope of `GeneralError` has the members "Status" and
"Error" (the Go field names), not "status" and "error"; and with a status
the server refuses, here 0, WriteJson panics before the encoder is reached. -/
theorem GeneralError_keys_counterexample :
    (∃ w1, WriteJson .fresh 500 (.response (GeneralError (errorsNew "boom"))) = some w1 ∧
      w1.Documents toyEncoding = [.obj [("Status", .str "ERROR"), ("Error", .str "boom")]] ∧
      (w1.Documents toyEncoding).map Json.keys = [["Status", "Error"]] ∧
      (w1.Documents toyEncoding).map Json.keys ≠ [["status", "error"]]) ∧
    WriteJson .fresh 0 (.response (GeneralError (errorsNew "boom"))) = none := by
  refine ⟨⟨_, rfl, rfl, rfl, ?_⟩, rfl⟩
  decide

/-- C5 as amended: called with the envelope `GeneralError(err)` and a status
the server accepts (100 to 999), WriteJson returns, the encoder has been
called once more, with the envelope, and the document it has produced for
it, the last of the response, is the object with exactly the two members
"Status", whose value is "ERROR", and "Error", whose value is the message of
`err`, in this order. -/
theorem GeneralError_Marshal (enc : Encoding) (err : GoError) (w : ResponseWriter)
    (status : Int) (hlo : 100 ≤ status) (hhi : status ≤ 999) :
    ∃ w1, WriteJson w status (.response (GeneralError err)) = some w1 ∧
      w1.Body = w.Body ++ [.response (GeneralError err)] ∧
      w1.Documents enc =
        w.Documents enc ++ [.obj [("Status", .str "ERROR"), ("Error", .str err.Error)]] ∧
      (w1.Documents enc).getLast?.map Json.keys = some ["Status", "Error"] := by
  obtain ⟨w1, hw1, hb⟩ := WriteJson_Body w status (.response (GeneralError err)) hlo hhi
  refine ⟨w1, hw1, hb, ?_, ?_⟩
  · simp [ResponseWriter.Documents, hb, Payload.Marshal, Response.Marshal, GeneralError,
      StatusError]
  · simp [ResponseWriter.Documents, hb, Payload.Marshal, Response.Marshal, GeneralError,
      Json.keys]

/-- The theorem of C5 for the envelope of a storage error written with
status 500 on a new writer. -/
theorem GeneralError_Marshal_witness :
    ∃ w1, WriteJson .fresh 500 (.response (GeneralError dbDown)) = some w1 ∧
      w1.Body = [.response (GeneralError dbDown)] ∧
      w1.Documents toyEncoding =
        [.obj [("Status", .str "ERROR"), ("Error", .str "database is locked")]] ∧
      (w1.Documents toyEncoding).getLast?.map Json.keys = some ["Status", "Error"] :=
  GeneralError_Marshal toyEncoding dbDown .fresh 500 (by decide) (by decide)

/-! ## Success responses (C6, C7) -/

/-- C6: whenever the body decodes, the record validates and CreateStudent
returns the id `n` without error, Create answers 201 with the map holding
the one entry "id" with value `n`; and whenever the path id parses and
DeleteById returns `d` without error, Delete answers 200 with the map holding
the one entry "deleted_id" with value `d`.  In both cases the one gateway
call is recorded and the store is the one the gateway left. -/
theorem Create_Delete_success {σ : Type} (h : Env σ) (w : ResponseWriter) (r : Request)
    (st : World σ) :
    (∀ s n store1, Decode h.Unmarshal r.Body = .ok s → h.Struct s = none →
      h.storage.CreateStudent st.store s.Name s.Email s.Age = ((n, none), store1) →
      ∃ w1, Create h w r st =
          (some w1, ⟨store1, st.calls ++ [.CreateStudent s.Name s.Email s.Age]⟩) ∧
        WriteJson w 201 (.mapInt64 "id" n) = some w1 ∧
        w1.Body = w.Body ++ [.mapInt64 "id" n] ∧
        (w.Sent = none →
          w1.Sent = some (201, w.header.Set "Content-Type" "application/json"))) ∧
    (∀ intId d store2, ParseInt r.PathId = .ok intId →
      h.storage.DeleteById st.store intId = ((d, none), store2) →
      ∃ w1, Delete h w r st = (some w1, ⟨store2, st.calls ++ [.DeleteById intId]⟩) ∧
        WriteJson w 200 (.mapInt64 "deleted_id" d) = some w1 ∧
        w1.Body = w.Body ++ [.mapInt64 "deleted_id" d] ∧
        (w.Sent = none →
          w1.Sent = some (200, w.header.Set "Content-Type" "application/json"))) := by
  constructor
  · intro s n store1 hdec hval hcreate
    apply answer_of_eq _ w 201 _ _ (by decide) (by decide)
    simp [Create, hdec, hval, hcreate, StatusCreated]
  · intro intId d store2 hid hdelete
    apply answer_of_eq _ w 200 _ _ (by decide) (by decide)
    simp [Delete, hid, hdelete, StatusOK]

/-- The theorem of C6 evaluated: the first POST /students on the empty
in-memory store is answered 201 with id 1, and DELETE /students/1 on the
store holding that record is answered 200 with deleted_id 1. -/
theorem Create_Delete_success_witness :
    (∃ w1, Create memEnv .fresh ⟨"", "ada"⟩ emptyWorld =
        (some w1, ⟨[⟨1, "Ada", "ada@x.com", 30⟩], [.CreateStudent "Ada" "ada@x.com" 30]⟩) ∧
      WriteJson .fresh 201 (.mapInt64 "id" 1) = some w1 ∧
      w1.Body = [.mapInt64 "id" 1] ∧
      w1.Sent = some (201, [("Content-Type", "application/json")])) ∧
    (∃ w1, Delete memEnv .fresh ⟨"1", ""⟩ oneAda = (some w1, ⟨[], [.DeleteById 1]⟩) ∧
      WriteJson .fresh 200 (.mapInt64 "deleted_id" 1) = some w1 ∧
      w1.Body = [.mapInt64 "deleted_id" 1] ∧
      w1.Sent = some (200, [("Content-Type", "application/json")])) :=
  ⟨let ⟨w1, h1, h2, h3, h4⟩ :=
      (Create_Delete_success memEnv .fresh ⟨"", "ada"⟩ emptyWorld).1
        ⟨0, "Ada", "ada@x.com", 30⟩ 1 [⟨1, "Ada", "ada@x.com", 30⟩] rfl rfl rfl
   ⟨w1, h1, h2, h3, h4 rfl⟩,
   let ⟨w1, h1, h2, h3, h4⟩ :=
      (Create_Delete_success memEnv .fresh ⟨"1", ""⟩ oneAda).2 1 1 [] rfl rfl
   ⟨w1, h1, h2, h3, h4 rfl⟩⟩

/-- C7: whenever GetList succeeds, GetList answers 200 with the very list
the gateway returned (so with its length and order); whenever the path id
parses and GetStudentById, called with the parsed id, succeeds, Get answers
200 with the record it returned; whenever the path id parses, the body
decodes and validates and UpdateById succeeds, Update answers 200 with the
record it returned.  The value is handed to the encoder as it is, inside no
envelope, and the one gateway call is recorded. -/
theorem GetList_Get_Update_success {σ : Type} (h : Env σ) (w : ResponseWriter)
    (r : Request) (st : World σ) :
    (∀ l store1, h.storage.GetList st.store = ((l, none), store1) →
      ∃ w1, GetList h w r st = (some w1, ⟨store1, st.calls ++ [.GetList]⟩) ∧
        WriteJson w 200 (.students l) = some w1 ∧
        w1.Body = w.Body ++ [.students l] ∧
        (w.Sent = none →
          w1.Sent = some (200, w.header.Set "Content-Type" "application/json"))) ∧
    (∀ intId g store2, ParseInt r.PathId = .ok intId →
      h.storage.GetStudentById st.store intId = ((g, none), store2) →
      ∃ w1, Get h w r st = (some w1, ⟨store2, st.calls ++ [.GetStudentById intId]⟩) ∧
        WriteJson w 200 (.student g) = some w1 ∧
        w1.Body = w.Body ++ [.student g] ∧
        (w.Sent = none →
          w1.Sent = some (200, w.header.Set "Content-Type" "application/json"))) ∧
    (∀ intId s u store3, ParseInt r.PathId = .ok intId →
      Decode h.Unmarshal r.Body = .ok s → h.Struct s = none →
      h.storage.UpdateById st.store intId s.Name s.Email s.Age = ((u, none), store3) →
      ∃ w1, Update h w r st =
          (some w1, ⟨store3, st.calls ++ [.UpdateById intId s.Name s.Email s.Age]⟩) ∧
        WriteJson w 200 (.student u) = some w1 ∧
        w1.Body = w.Body ++ [.student u] ∧
        (w.Sent = none →
          w1.Sent = some (200, w.header.Set "Content-Type" "application/json"))) := by
  refine ⟨?_, ?_, ?_⟩
  · intro l store1 hlist
    apply answer_of_eq _ w 200 _ _ (by decide) (by decide)
    simp [GetList, hlist, StatusOK]
  · intro intId g store2 hid hget
    apply answer_of_eq _ w 200 _ _ (by decide) (by decide)
    simp [Get, hid, hget, StatusOK]
  · intro intId s u store3 hid hdec hval hupdate
    apply answer_of_eq _ w 200 _ _ (by decide) (by decide)
    simp [Update, hid, hdec, hval, hupdate, StatusOK]

/-- The theorem of C7 evaluated on the in-memory store holding one record:
GET /students (no path id, no body), GET /students/1 (no body) and
PUT /students/1 with a body that decodes. -/
theorem GetList_Get_Update_success_witness :
    (∃ w1, GetList memEnv .fresh ⟨"", ""⟩ oneAda =
        (some w1, ⟨[⟨1, "Ada", "ada@x.com", 30⟩], [.GetList]⟩) ∧
      WriteJson .fresh 200 (.students [⟨1, "Ada", "ada@x.com", 30⟩]) = some w1 ∧
      w1.Body = [.students [⟨1, "Ada", "ada@x.com", 30⟩]] ∧
      w1.Sent = some (200, [("Content-Type", "application/json")])) ∧
    (∃ w1, Get memEnv .fresh ⟨"1", ""⟩ oneAda =
        (some w1, ⟨[⟨1, "Ada", "ada@x.com", 30⟩], [.GetStudentById 1]⟩) ∧
      WriteJson .fresh 200 (.student ⟨1, "Ada", "ada@x.com", 30⟩) = some w1 ∧
      w1.Body = [.student ⟨1, "Ada", "ada@x.com", 30⟩] ∧
      w1.Sent = some (200, [("Content-Type", "application/json")])) ∧
    (∃ w1, Update memEnv .fresh ⟨"1", "ada"⟩ oneAda =
        (some w1, ⟨[⟨1, "Ada", "ada@x.com", 30⟩],
          [.UpdateById 1 "Ada" "ada@x.com" 30]⟩) ∧
      WriteJson .fresh 200 (.student ⟨1, "Ada", "ada@x.com", 30⟩) = some w1 ∧
      w1.Body = [.student ⟨1, "Ada", "ada@x.com", 30⟩] ∧
      w1.Sent = some (200, [("Content-Type", "application/json")])) :=
  ⟨let ⟨w1, h1, h2, h3, h4⟩ :=
      (GetList_Get_Update_success memEnv .fresh ⟨"", ""⟩ oneAda).1
        [⟨1, "Ada", "ada@x.com", 30⟩] [⟨1, "Ada", "ada@x.com", 30⟩] rfl
   ⟨w1, h1, h2, h3, h4 rfl⟩,
   let ⟨w1, h1, h2, h3, h4⟩ :=
      (GetList_Get_Update_success memEnv .fresh ⟨"1", ""⟩ oneAda).2.1 1
        ⟨1, "Ada", "ada@x.com", 30⟩ [⟨1, "Ada", "ada@x.com", 30⟩] rfl rfl
   ⟨w1, h1, h2, h3, h4 rfl⟩,
   let ⟨w1, h1, h2, h3, h4⟩ :=
      (GetList_Get_Update_success memEnv .fresh ⟨"1", "ada"⟩ oneAda).2.2 1
        ⟨0, "Ada", "ada@x.com", 30⟩ ⟨1, "Ada", "ada@x.com", 30⟩
        [⟨1, "Ada", "ada@x.com", 30⟩] rfl rfl rfl rfl
   ⟨w1, h1, h2, h3, h4 rfl⟩⟩

/-! ## One response per request (C8) -/

/-- Every run of a handler ends in the result of one call of WriteJson on
the writer it received, with one of the five status codes of the file. -/
theorem handler_eq_WriteJson {σ : Type} (op : Operation) (h : Env σ) (w : ResponseWriter)
    (r : Request) (st : World σ) :
    ∃ status data, (op.handler h w r st).1 = WriteJson w status data ∧
      (status = 200 ∨ status = 201 ∨ status = 400 ∨ status = 500 ∨ status = 502) := by
  cases op
  · -- Create
    cases hdec : Decode h.Unmarshal r.Body with
    | error e =>
      by_cases he : e.IsEOF = true
      · exact ⟨StatusBadRequest, .response (GeneralError (errorsNew "empty body")), by
          simp [Operation.handler, Create, hdec, he], by decide⟩
      · exact ⟨StatusBadGateway, .response (GeneralError e), by
          simp [Operation.handler, Create, hdec, he], by decide⟩
    | ok s =>
      cases hval : h.Struct s with
      | some errs =>
        exact ⟨StatusBadRequest, .validationError errs, by
          simp [Operation.handler, Create, hdec, hval], by decide⟩
      | none =>
        rcases hs : h.storage.CreateStudent st.store s.Name s.Email s.Age with ⟨⟨n, e⟩, store⟩
        cases e with
        | some e =>
          exact ⟨StatusInternalServerError, .error e, by
            simp [Operation.handler, Create, hdec, hval, hs], by decide⟩
        | none =>
          exact ⟨StatusCreated, .mapInt64 "id" n, by
            simp [Operation.handler, Create, hdec, hval, hs], by decide⟩
  · -- Get
    cases hid : ParseInt r.PathId with
    | error e =>
      exact ⟨StatusBadRequest, .response (GeneralError (e.toError h.Quote)), by
        simp [Operation.handler, Get, hid], by decide⟩
    | ok intId =>
      rcases hs : h.storage.GetStudentById st.store intId with ⟨⟨g, e⟩, store⟩
      cases e with
      | some e =>
        exact ⟨StatusInternalServerError, .response (GeneralError e), by
          simp [Operation.handler, Get, hid, hs], by decide⟩
      | none =>
        exact ⟨StatusOK, .student g, by simp [Operation.handler, Get, hid, hs], by decide⟩
  · -- GetList
    rcases hs : h.storage.GetList st.store with ⟨⟨l, e⟩, store⟩
    cases e with
    | some e =>
      exact ⟨StatusInternalServerError, .error e, by simp [Operation.handler, GetList, hs], by decide⟩
    | none =>
      exact ⟨StatusOK, .students l, by simp [Operation.handler, GetList, hs], by decide⟩
  · -- Update
    cases hid : ParseInt r.PathId with
    | error e =>
      exact ⟨StatusBadRequest,
        .response (GeneralError (Errorf_w "invalid id format: " (e.toError h.Quote))), by
        simp [Operation.handler, Update, hid], by decide⟩
    | ok intId =>
      cases hdec : Decode h.Unmarshal r.Body with
      | error e =>
        exact ⟨StatusBadRequest,
          .response (GeneralError (Errorf_w "invalid request payload: " e)), by
          simp [Operation.handler, Update, hid, hdec], by decide⟩
      | ok s =>
        cases hval : h.Struct s with
        | some errs =>
          exact ⟨StatusBadRequest, .validationError errs, by
            simp [Operation.handler, Update, hid, hdec, hval], by decide⟩
        | none =>
          rcases hs : h.storage.UpdateById st.store intId s.Name s.Email s.Age with
            ⟨⟨u, e⟩, store⟩
          cases e with
          | some e =>
            exact ⟨StatusInternalServerError, .response (GeneralError e), by
              simp [Operation.handler, Update, hid, hdec, hval, hs], by decide⟩
          | none =>
            exact ⟨StatusOK, .student u, by
              simp [Operation.handler, Update, hid, hdec, hval, hs], by decide⟩
  · -- Delete
    cases hid : ParseInt r.PathId with
    | error e =>
      exact ⟨StatusBadRequest, .response (GeneralError (errorsNew "invalid student ID")), by
        simp [Operation.handler, Delete, hid], by decide⟩
    | ok intId =>
      rcases hs : h.storage.DeleteById st.store intId with ⟨⟨d, e⟩, store⟩
      cases e with
      | some e =>
        exact ⟨StatusInternalServerError, .response (GeneralError e), by
          simp [Operation.handler, Delete, hid, hs], by decide⟩
      | none =>
        exact ⟨StatusOK, .mapInt64 "deleted_id" d, by
          simp [Operation.handler, Delete, hid, hs], by decide⟩

/-- C8: for every operation, request, starting writer, store and behaviour
of the collaborators, the handler calls WriteJson exactly once: what it
leaves is the result of one WriteJson call on the writer it received, that
call returns, and the encoder has been called with exactly one value more
than before. -/
theorem exactly_one_response {σ : Type} (op : Operation) (h : Env σ) (w : ResponseWriter)
    (r : Request) (st : World σ) :
    (∃ status data w1, (op.handler h w r st).1 = WriteJson w status data ∧
      (op.handler h w r st).1 = some w1 ∧ w1.Body = w.Body ++ [data]) ∧
    (∃ w1, (op.handler h w r st).1 = some w1 ∧ w1.Body.length = w.Body.length + 1) := by
  obtain ⟨status, data, hw, hcode⟩ := handler_eq_WriteJson op h w r st
  obtain ⟨w1, hw1, hb⟩ := WriteJson_Body w status data (by omega) (by omega)
  refine ⟨⟨status, data, w1, hw, hw.trans hw1, hb⟩, ⟨w1, hw.trans hw1, ?_⟩⟩
  rw [hb]; simp

/-! ## Malformed body (C9) -/

/-- C9 fails for Create on a body that is present but holds white space
only: it is not empty and does not decode, yet the decoder reports `io.EOF`
for it (whatever the value decoder is), and Create answers 400 with the
message "empty body", not 502. -/
theorem malformed_body_Create_counterexample :
    ((" " : String) ≠ "") ∧
    (∀ U : String → Except GoError Student, Decode U " " = .error EOF) ∧
    (∃ w1, (Create memEnv .fresh ⟨"", " "⟩ emptyWorld).1 = some w1 ∧
      w1.status = some 400 ∧ w1.status ≠ some 502 ∧
      w1.Body = [.response ⟨"ERROR", "empty body"⟩]) := by
  refine ⟨by decide, fun U => rfl, ⟨_, rfl, rfl, by decide, rfl⟩⟩

/-- C9 as amended: when decoding the body fails with an error `e` that is
not `io.EOF`, Create answers 502 with the envelope carrying the message of
`e`; when the body holds white space only, Create answers 400 with the
envelope "empty body"; and whenever the path id parses and decoding fails
with any error `e` (so also for a body of white space only), Update answers
400 with the envelope carrying "invalid request payload: " followed by the
message of `e`.  In all three cases the store is untouched and not called. -/
theorem malformed_body_rejected {σ : Type} (h : Env σ) (w : ResponseWriter) (r : Request)
    (st : World σ) :
    (∀ e, Decode h.Unmarshal r.Body = .error e → e.IsEOF = false →
      ∃ w1, Create h w r st = (some w1, st) ∧
        WriteJson w 502 (.response ⟨"ERROR", e.Error⟩) = some w1 ∧
        w1.Body = w.Body ++ [.response ⟨"ERROR", e.Error⟩] ∧
        (w.Sent = none →
          w1.Sent = some (502, w.header.Set "Content-Type" "application/json"))) ∧
    (r.Body.toList.all isSpace = true →
      ∃ w1, Create h w r st = (some w1, st) ∧
        WriteJson w 400 (.response ⟨"ERROR", "empty body"⟩) = some w1 ∧
        w1.Body = w.Body ++ [.response ⟨"ERROR", "empty body"⟩] ∧
        (w.Sent = none →
          w1.Sent = some (400, w.header.Set "Content-Type" "application/json"))) ∧
    (∀ e intId, ParseInt r.PathId = .ok intId → Decode h.Unmarshal r.Body = .error e →
      ∃ w1, Update h w r st = (some w1, st) ∧
        WriteJson w 400 (.response ⟨"ERROR", "invalid request payload: " ++ e.Error⟩) =
          some w1 ∧
        w1.Body = w.Body ++ [.response ⟨"ERROR", "invalid request payload: " ++ e.Error⟩] ∧
        (w.Sent = none →
          w1.Sent = some (400, w.header.Set "Content-Type" "application/json"))) := by
  refine ⟨?_, ?_, ?_⟩
  · intro e hdec he
    apply answer_of_eq _ w 502 _ st (by decide) (by decide)
    simp [Create, hdec, he, GeneralError, StatusBadGateway, StatusError]
  · intro hblank
    apply answer_of_eq _ w 400 _ st (by decide) (by decide)
    simp [Create, Decode_blank h.Unmarshal r.Body hblank, EOF, GeneralError, errorsNew,
      StatusBadRequest, StatusError]
  · intro e intId hid hdec
    apply answer_of_eq _ w 400 _ st (by decide) (by decide)
    simp [Update, hid, hdec, GeneralError, Errorf_w, StatusBadRequest, StatusError]

/-- The theorem of C9 evaluated: POST /students with the body "x", which the
value decoder refuses, is answered 502; POST /students with a body of two
blanks and a line break is answered 400 "empty body"; PUT /students/1 with
the body "x" and with a blank body is answered 400. -/
theorem malformed_body_rejected_witness :
    (∃ w1, Create memEnv .fresh ⟨"", "x"⟩ emptyWorld = (some w1, emptyWorld) ∧
      WriteJson .fresh 502 (.response ⟨"ERROR", "invalid character"⟩) = some w1 ∧
      w1.Body = [.response ⟨"ERROR", "invalid character"⟩] ∧
      w1.Sent = some (502, [("Content-Type", "application/json")])) ∧
    (∃ w1, Create memEnv .fresh ⟨"", "  \n"⟩ emptyWorld = (some w1, emptyWorld) ∧
      WriteJson .fresh 400 (.response ⟨"ERROR", "empty body"⟩) = some w1 ∧
      w1.Body = [.response ⟨"ERROR", "empty body"⟩] ∧
      w1.Sent = some (400, [("Content-Type", "application/json")])) ∧
    (∃ w1, Update memEnv .fresh ⟨"1", "x"⟩ oneAda = (some w1, oneAda) ∧
      WriteJson .fresh 400
        (.response ⟨"ERROR", "invalid request payload: " ++ "invalid character"⟩) = some w1 ∧
      w1.Body = [.response ⟨"ERROR", "invalid request payload: " ++ "invalid character"⟩] ∧
      w1.Sent = some (400, [("Content-Type", "application/json")])) ∧
    (∃ w1, Update memEnv .fresh ⟨"1", " "⟩ oneAda = (some w1, oneAda) ∧
      WriteJson .fresh 400 (.response ⟨"ERROR", "invalid request payload: " ++ "EOF"⟩) =
        some w1 ∧
      w1.Body = [.response ⟨"ERROR", "invalid request payload: " ++ "EOF"⟩] ∧
      w1.Sent = some (400, [("Content-Type", "application/json")])) :=
  ⟨let ⟨w1, h1, h2, h3, h4⟩ :=
      (malformed_body_rejected memEnv .fresh ⟨"", "x"⟩ emptyWorld).1
        (errorsNew "invalid character") rfl rfl
   ⟨w1, h1, h2, h3, h4 rfl⟩,
   let ⟨w1, h1, h2, h3, h4⟩ :=
      (malformed_body_rejected memEnv .fresh ⟨"", "  \n"⟩ emptyWorld).2.1 rfl
   ⟨w1, h1, h2, h3, h4 rfl⟩,
   let ⟨w1, h1, h2, h3, h4⟩ :=
      (malformed_body_rejected memEnv .fresh ⟨"1", "x"⟩ oneAda).2.2
        (errorsNew "invalid character") 1 rfl rfl
   ⟨w1, h1, h2, h3, h4 rfl⟩,
   let ⟨w1, h1, h2, h3, h4⟩ :=
      (malformed_body_rejected memEnv .fresh ⟨"1", " "⟩ oneAda).2.2 EOF 1 rfl rfl
   ⟨w1, h1, h2, h3, h4 rfl⟩⟩

/-! ## Content type (C10) -/

/-- C10 fails for the statuses the server does not take as the status of
the response: with status 0 (below 100) or 1000 (above 999) WriteHeader
panics and WriteJson sends nothing, and with status 100 an informational
response goes out and the response itself is then sent with status 200, not
with the status passed in. -/
theorem WriteJson_status_counterexample :
    WriteJson .fresh 0 (.mapInt64 "id" 1) = none ∧
    WriteJson .fresh 1000 (.mapInt64 "id" 1) = none ∧
    (∃ w1, WriteJson .fresh 100 (.mapInt64 "id" 1) = some w1 ∧
      w1.Interim = [(100, [("Content-Type", "application/json")])] ∧
      w1.Sent = some (200, [("Content-Type", "application/json")]) ∧
      w1.status ≠ some 100) := by
  refine ⟨rfl, rfl, ⟨_, rfl, rfl, rfl, by decide⟩⟩

/-- C10 as amended: on a writer whose status line has not been written,
WriteJson called with status 101 or a status from 200 to 999 sends exactly
that status
together with headers in which Content-Type is application/json (the
header is set before the status line goes out); and every one of the five
operations, whatever the request and the collaborators do, sends one
response through one such call, with status 200, 201, 400, 500 or 502 and
Content-Type application/json. -/
theorem content_type_json {σ : Type} (op : Operation) (h : Env σ) (w : ResponseWriter)
    (r : Request) (st : World σ) (hw : w.Sent = none) :
    (∀ (status : Int) (data : Payload), status = 101 ∨ 200 ≤ status → status ≤ 999 →
      ∃ w1 hd, WriteJson w status data = some w1 ∧ w1.Sent = some (status, hd) ∧
        hd.Get "Content-Type" = some "application/json") ∧
    (∃ code d w1 hd, (op.handler h w r st).1 = WriteJson w code d ∧
      (op.handler h w r st).1 = some w1 ∧ w1.Sent = some (code, hd) ∧
      hd.Get "Content-Type" = some "application/json" ∧
      (code = 200 ∨ code = 201 ∨ code = 400 ∨ code = 500 ∨ code = 502)) := by
  constructor
  · intro status data hlo hhi
    refine ⟨_, w.header.Set "Content-Type" "application/json",
      WriteJson_final w status data hlo hhi, ?_, Header_Get_Set _ _ _⟩
    simp [hw]
  · obtain ⟨code, d, hc, hcode⟩ := handler_eq_WriteJson op h w r st
    refine ⟨code, d, _, w.header.Set "Content-Type" "application/json", hc,
      hc.trans (WriteJson_final w code d (by omega) (by omega)), ?_, Header_Get_Set _ _ _,
      hcode⟩
    simp [hw]

/-- The theorem of C10 on a new writer, for WriteJson with status 201 and
for POST /students answered by Create. -/
theorem content_type_json_witness :
    (∃ w1 hd, WriteJson .fresh 201 (.mapInt64 "id" 2) = some w1 ∧ w1.Sent = some (201, hd) ∧
      hd.Get "Content-Type" = some "application/json") ∧
    (∃ code d w1 hd,
      (Operation.Create.handler memEnv .fresh ⟨"", "ada"⟩ oneAda).1 = WriteJson .fresh code d ∧
      (Operation.Create.handler memEnv .fresh ⟨"", "ada"⟩ oneAda).1 = some w1 ∧
      w1.Sent = some (code, hd) ∧
      hd.Get "Content-Type" = some "application/json" ∧
      (code = 200 ∨ code = 201 ∨ code = 400 ∨ code = 500 ∨ code = 502)) :=
  ⟨(content_type_json Operation.Create memEnv .fresh ⟨"", "ada"⟩ oneAda rfl).1 201
      (.mapInt64 "id" 2) (by decide) (by decide),
   (content_type_json Operation.Create memEnv .fresh ⟨"", "ada"⟩ oneAda rfl).2⟩

end GoCrudApi
